import Mathlib

/-!
Verification of the LangGraph A2A executor
(`src/a2anet/executors/langgraph.py`, class `LangGraphAgentExecutor`).

The executor is shallowly embedded: the graph engine is an external
collaborator, so one run of `execute` is parameterised by the list of
stream ticks the graph would deliver (each tick carrying the full
accumulated message list, as in `stream_mode="values"`) and by the
graph's post-stream state snapshot.  The event queue is modelled as the
list of events enqueued, in order; a fatal `raise` is modelled by an
`Option ExecError` component next to the events already emitted, since
enqueued events remain visible to the caller when `execute` raises.
`str(uuid.uuid4())` is modelled by a fresh-name counter threaded through
the run.
-/

namespace A2ANet

/-- Python values as they occur in message content and parsed JSON:
`None`, booleans, numbers, strings, lists and dicts.  A non-integer
number literal is kept in exact decimal form `float m e` (value
`m × 10^e`, trailing zeros of `m` stripped); the IEEE-754 rounding
Python applies on top, which can identify distinct decimal literals, is
not modelled — no claim depends on float values.  `nan` and
`infinity` model the `NaN` / `Infinity` / `-Infinity` constants
Python's `json.loads` accepts.  A dict is an insertion-ordered list of
distinct keys, as in Python. -/
inductive Json where
  | null
  | bool (b : Bool)
  | num (n : Int)
  | float (m : Int) (e : Int)
  | nan
  | infinity (neg : Bool)
  | str (s : String)
  | arr (elems : List Json)
  | obj (fields : List (String × Json))

/-- Python truthiness of a `Json` value (`if value:`). -/
def truthy : Json → Bool
  | .null => false
  | .bool b => b
  | .num n => n != 0
  | .float m _ => m != 0
  | .nan => true
  | .infinity _ => true
  | .str s => s != ""
  | .arr xs => !xs.isEmpty
  | .obj fs => !fs.isEmpty

/-- Python `dict.get` on a dict of `Json` values: `none` models both a
missing key and is never confused with a present value. -/
def dict_get_json : List (String × Json) → String → Option Json
  | [], _ => none
  | (k2, v) :: rest, k => if k2 = k then some v else dict_get_json rest k

/-! ### A model of `json.loads`

Python's `json.loads` is external stdlib code; it is modelled here by a
fuel-bounded recursive-descent parser for Python's default JSON
dialect: null / true / false, numbers by the grammar
`-?(0|[1-9][0-9]*)(\.[0-9]+)?([eE][+-]?[0-9]+)?` (so leading-zero
integers are rejected), the constants `NaN`, `Infinity` and
`-Infinity`, strict strings (unescaped control characters rejected)
with the standard escapes and `\uXXXX` surrogate pairs combined,
arrays, and objects with duplicate keys collapsed last-wins as a Python
dict does.  Remaining value-level approximations, none of which a claim
touches: float literals keep their exact decimal value instead of the
nearest IEEE-754 double, and a lone `\uXXXX` surrogate (not
representable in a Lean `String`) decodes to U+FFFD. -/

/-- Skip JSON whitespace. -/
def skipWs : List Char → List Char
  | [] => []
  | c :: rest =>
    if c = ' ' ∨ c = '\t' ∨ c = '\n' ∨ c = '\r' then skipWs rest else c :: rest

/-- Hexadecimal digit value, if any. -/
def hexDigit : Char → Option Nat
  | c =>
    if '0' ≤ c ∧ c ≤ '9' then some (c.toNat - 48)
    else if 'a' ≤ c ∧ c ≤ 'f' then some (c.toNat - 87)
    else if 'A' ≤ c ∧ c ≤ 'F' then some (c.toNat - 55)
    else none

/-- Decimal digit value, if any. -/
def digit : Char → Option Nat
  | c => if '0' ≤ c ∧ c ≤ '9' then some (c.toNat - 48) else none

/-- Longest digit run at the head of the input. -/
def takeDigits : List Char → List Nat × List Char
  | [] => ([], [])
  | c :: rest =>
    match digit c with
    | some d =>
      let (ds, rem) := takeDigits rest
      (d :: ds, rem)
    | none => ([], c :: rest)

/-- A `\uXXXX` escape right at the head of the input, as its code
point and the rest of the input. -/
def parseHex4 : List Char → Option (Nat × List Char)
  | h1 :: h2 :: h3 :: h4 :: rest =>
    match hexDigit h1, hexDigit h2, hexDigit h3, hexDigit h4 with
    | some a, some b, some c, some d =>
      some ((((a * 16 + b) * 16 + c) * 16 + d), rest)
    | _, _, _, _ => none
  | _ => none

/-- Body of a JSON string literal (after the opening quote), with the
standard escapes; unescaped control characters are rejected, as by
Python's default `strict=True`; a `\uXXXX` high surrogate followed by
an escaped low surrogate combines into one code point, and a lone
surrogate (which a Lean `String` cannot hold) becomes U+FFFD.  Returns
the decoded characters and the input after the closing quote. -/
def parseStringChars : Nat → List Char → Option (List Char × List Char)
  | 0, _ => none
  | _, [] => none
  | fuel + 1, c :: rest =>
    if c = '"' then some ([], rest)
    else if c = '\\' then
      match rest with
      | [] => none
      | e :: rest2 =>
        let cont : Char → List Char → Option (List Char × List Char) := fun ch rs =>
          match parseStringChars fuel rs with
          | some (tail, rem) => some (ch :: tail, rem)
          | none => none
        if e = '"' then cont '"' rest2
        else if e = '\\' then cont '\\' rest2
        else if e = '/' then cont '/' rest2
        else if e = 'b' then cont (Char.ofNat 8) rest2
        else if e = 'f' then cont (Char.ofNat 12) rest2
        else if e = 'n' then cont '\n' rest2
        else if e = 'r' then cont '\r' rest2
        else if e = 't' then cont '\t' rest2
        else if e = 'u' then
          match parseHex4 rest2 with
          | none => none
          | some (cp, rest3) =>
            if 0xD800 ≤ cp ∧ cp ≤ 0xDBFF then
              match rest3 with
              | '\\' :: 'u' :: rest4 =>
                match parseHex4 rest4 with
                | some (cp2, rest5) =>
                  if 0xDC00 ≤ cp2 ∧ cp2 ≤ 0xDFFF then
                    cont (Char.ofNat
                      (0x10000 + (cp - 0xD800) * 0x400 + (cp2 - 0xDC00))) rest5
                  else cont (Char.ofNat 0xFFFD) rest3
                | none => cont (Char.ofNat 0xFFFD) rest3
              | _ => cont (Char.ofNat 0xFFFD) rest3
            else if 0xDC00 ≤ cp ∧ cp ≤ 0xDFFF then cont (Char.ofNat 0xFFFD) rest3
            else cont (Char.ofNat cp) rest3
        else none
    else if c.toNat < 32 then none
    else
      match parseStringChars fuel rest with
      | some (tail, rem) => some (c :: tail, rem)
      | none => none

/-- The natural number a digit run denotes. -/
def digitsToNat (ds : List Nat) : Nat := ds.foldl (fun a d => a * 10 + d) 0

/-- Strip trailing decimal zeros of `m`, bumping the exponent, to give
decimal-form floats one canonical representation. -/
def stripZeros : Nat → Nat → Int → Nat × Int
  | 0, m, e => (m, e)
  | fuel + 1, m, e =>
    if m ≠ 0 ∧ m % 10 = 0 then stripZeros fuel (m / 10) (e + 1) else (m, e)

/-- The `float` value of a number literal with a fractional or exponent
part: sign, integer digits, fraction digits and decimal exponent. -/
def makeFloat (neg : Bool) (intDigits fracDigits : List Nat) (exp : Int) : Json :=
  let m0 := digitsToNat (intDigits ++ fracDigits)
  let e0 := exp - fracDigits.length
  let (m1, e1) := stripZeros (intDigits.length + fracDigits.length) m0 e0
  if m1 = 0 then .float 0 0
  else .float (if neg then -(m1 : Int) else (m1 : Int)) e1

/-- A JSON number by Python's grammar
`-?(0|[1-9][0-9]*)(\.[0-9]+)?([eE][+-]?[0-9]+)?`: leading-zero
integers are rejected, a literal with a fraction or exponent part is a
float, a bare integer literal is an integer. -/
def parseNumberToken (cs : List Char) : Option (Json × List Char) :=
  let (neg, cs1) : Bool × List Char :=
    match cs with
    | '-' :: rest => (true, rest)
    | _ => (false, cs)
  match takeDigits cs1 with
  | ([], _) => none
  | (d :: ds, rem1) =>
    if d = 0 ∧ ds ≠ [] then none
    else
      let intDigits := d :: ds
      let fracRes : Option (List Nat × List Char) :=
        match rem1 with
        | '.' :: rem2 =>
          match takeDigits rem2 with
          | ([], _) => none
          | (fds, rem3) => some (fds, rem3)
        | _ => some ([], rem1)
      match fracRes with
      | none => none
      | some (fracDigits, rem3) =>
        let expRes : Option (Option Int × List Char) :=
          match rem3 with
          | c :: rem4 =>
            if c = 'e' ∨ c = 'E' then
              let (esgn, rem5) : Bool × List Char :=
                match rem4 with
                | '+' :: r => (false, r)
                | '-' :: r => (true, r)
                | _ => (false, rem4)
              match takeDigits rem5 with
              | ([], _) => none
              | (eds, rem6) =>
                some (some (if esgn then -(digitsToNat eds : Int)
                            else (digitsToNat eds : Int)), rem6)
            else some (none, rem3)
          | [] => some (none, [])
        match expRes with
        | none => none
        | some (expOpt, rem6) =>
          match fracDigits, expOpt with
          | [], none =>
            some (.num (if neg then -(digitsToNat intDigits : Int)
                        else (digitsToNat intDigits : Int)), rem6)
          | _, _ => some (makeFloat neg intDigits fracDigits (expOpt.getD 0), rem6)

/-- Insert a member into a dict the way Python assignment does: an
existing key keeps its position and takes the new value, a new key goes
to the end. -/
def objInsert : List (String × Json) → String → Json → List (String × Json)
  | [], k, v => [(k, v)]
  | (k2, v2) :: rest, k, v =>
    if k2 = k then (k2, v) :: rest else (k2, v2) :: objInsert rest k v

/-- Build the dict a sequence of parsed members denotes: duplicate keys
collapse, last value wins. -/
def objFromMembers (ms : List (String × Json)) : List (String × Json) :=
  ms.foldl (fun acc kv => objInsert acc kv.1 kv.2) []

mutual

/-- A JSON value, by recursive descent with fuel. -/
def parseValue : Nat → List Char → Option (Json × List Char)
  | 0, _ => none
  | fuel + 1, cs =>
    match skipWs cs with
    | 'n' :: 'u' :: 'l' :: 'l' :: rest => some (.null, rest)
    | 't' :: 'r' :: 'u' :: 'e' :: rest => some (.bool true, rest)
    | 'f' :: 'a' :: 'l' :: 's' :: 'e' :: rest => some (.bool false, rest)
    | 'N' :: 'a' :: 'N' :: rest => some (.nan, rest)
    | 'I' :: 'n' :: 'f' :: 'i' :: 'n' :: 'i' :: 't' :: 'y' :: rest =>
      some (.infinity false, rest)
    | '-' :: 'I' :: 'n' :: 'f' :: 'i' :: 'n' :: 'i' :: 't' :: 'y' :: rest =>
      some (.infinity true, rest)
    | '"' :: rest =>
      match parseStringChars (rest.length + 1) rest with
      | some (chars, rem) => some (.str (String.mk chars), rem)
      | none => none
    | '[' :: rest =>
      match skipWs rest with
      | ']' :: rem => some (.arr [], rem)
      | cs2 =>
        match parseElems fuel cs2 with
        | some (elems, rem) => some (.arr elems, rem)
        | none => none
    | '\x7b' :: rest =>
      match skipWs rest with
      | '\x7d' :: rem => some (.obj [], rem)
      | cs2 =>
        match parseMembers fuel cs2 with
        | some (fields, rem) => some (.obj (objFromMembers fields), rem)
        | none => none
    | cs2 => parseNumberToken cs2

/-- Comma-separated JSON array elements up to the closing bracket. -/
def parseElems : Nat → List Char → Option (List Json × List Char)
  | 0, _ => none
  | fuel + 1, cs =>
    match parseValue fuel cs with
    | none => none
    | some (v, rem) =>
      match skipWs rem with
      | ',' :: rem2 =>
        match parseElems fuel rem2 with
        | some (vs, rem3) => some (v :: vs, rem3)
        | none => none
      | ']' :: rem2 => some ([v], rem2)
      | _ => none

/-- Comma-separated JSON object members up to the closing brace. -/
def parseMembers : Nat → List Char → Option (List (String × Json) × List Char)
  | 0, _ => none
  | fuel + 1, cs =>
    match skipWs cs with
    | '"' :: rest =>
      match parseStringChars (rest.length + 1) rest with
      | none => none
      | some (kchars, rem) =>
        match skipWs rem with
        | ':' :: rem2 =>
          match parseValue fuel rem2 with
          | none => none
          | some (v, rem3) =>
            match skipWs rem3 with
            | ',' :: rem4 =>
              match parseMembers fuel rem4 with
              | some (ms, rem5) => some ((String.mk kchars, v) :: ms, rem5)
              | none => none
            | '\x7d' :: rem4 => some ([(String.mk kchars, v)], rem4)
            | _ => none
        | _ => none
    | _ => none

end

/-- `json.loads` on a string: a full-input parse of a JSON document. -/
def jsonParse (s : String) : Option Json :=
  match parseValue (s.length + 1) s.data with
  | some (v, rem) =>
    match skipWs rem with
    | [] => some v
    | _ => none
  | none => none

/-- `json.loads` applied to a message-content value that may not be a
string: a non-string argument raises `TypeError`, which the executor
catches, so it is `none` here; a string argument parses as JSON. -/
def jsonLoads : Json → Option Json
  | .str s => jsonParse s
  | _ => none

/-! ### The A2A protocol data model (`a2a.types`, `a2a.utils`)

Only the fields the executor reads or writes are modelled. -/

/-- `a2a.types.TaskState`. -/
inductive TaskState where
  | submitted
  | working
  | inputRequired
  | authRequired
  | completed
  | canceled
  | failed
  | rejected
  | unknown
deriving DecidableEq

/-- `a2a.types.Role`. -/
inductive Role where
  | user
  | agent
deriving DecidableEq

/-- `a2a.types.Task`, reduced to the two fields the executor reads. -/
structure Task where
  id : String
  contextId : String
deriving DecidableEq

/-- A message part: `TextPart` or `DataPart`.  The payload is kept as
the raw `Json` value the executor passes to the constructor. -/
inductive Part where
  | text (text : Json)
  | data (data : Json)

/-- The `metadata` dict the executor attaches to protocol messages:
`{"type": "tool-call", "toolCallId": ..., "toolCallName": ...}` or
`{"type": "tool-call-result", ...}`. -/
inductive MessageMeta where
  | toolCall (toolCallId : Option String) (toolCallName : String)
  | toolCallResult (toolCallId : String) (toolCallName : Option String)

/-- `a2a.types.Message` as built by the executor. -/
structure ProtoMessage where
  role : Role
  parts : List Part
  metadata : Option MessageMeta
  messageId : String
  taskId : String
  contextId : String

/-- `a2a.types.Artifact` as built by `new_data_artifact` /
`new_text_artifact`. -/
structure Artifact where
  artifactId : String
  name : String
  description : String
  parts : List Part

/-- One event enqueued on the `EventQueue`: the freshly created task,
a `TaskStatusUpdateEvent` (through `TaskUpdater.update_status`), or a
`TaskArtifactUpdateEvent`. -/
inductive Event where
  | newTask (task : Task)
  | statusUpdate (taskId contextId : String) (state : TaskState)
      (message : ProtoMessage) (final : Bool)
  | artifactUpdate (artifact : Artifact) (taskId contextId : String)

/-- `a2a.server.tasks.task_updater.TaskUpdater`, bound to the queue via
the events it produces. -/
structure TaskUpdater where
  taskId : String
  contextId : String

/-- The distinct exceptions the executor can raise: its own
`Exception`s, the `IndexError` of an empty tick, and the pydantic
`ValidationError` escaping from the a2a part constructors (it is not in
any caught exception set of the executor). -/
inductive ExecError where
  | noMessageInContext
  | emptyMessageList
  | noStructuredResponse
  | cancelNotSupported
  | validationError
deriving DecidableEq

/-- `DataPart(data=value)`: the `data` field of `a2a.types.DataPart` is
typed `dict[str, Any]`, so pydantic raises `ValidationError` for any
non-dict value. -/
def mkDataPart (value : Json) : Except ExecError Part :=
  match value with
  | .obj fields => .ok (.data (.obj fields))
  | _ => .error .validationError

/-- `TextPart(text=value)`: the `text` field of `a2a.types.TextPart` is
typed `str`, so pydantic raises `ValidationError` for any non-string
value. -/
def mkTextPart (value : Json) : Except ExecError Part :=
  match value with
  | .str s => .ok (.text (.str s))
  | _ => .error .validationError

/-- Models `str(uuid.uuid4())`: fresh identifiers drawn from a counter
threaded through the run. -/
def uuid4 (n : Nat) : String := "uuid-" ++ toString n

/-- `a2a.utils.new_agent_text_message text contextId taskId`. -/
def new_agent_text_message (text : Json) (contextId taskId : String) (n : Nat) :
    ProtoMessage :=
  { role := .agent, parts := [.text text], metadata := none,
    messageId := uuid4 n, taskId := taskId, contextId := contextId }

/-- `TaskUpdater.update_status state message final`: the status-update
event it enqueues. -/
def update_status (u : TaskUpdater) (state : TaskState) (message : ProtoMessage)
    (final : Bool) : Event :=
  .statusUpdate u.taskId u.contextId state message final

/-- `a2a.utils.new_data_artifact name description data`: builds
`Artifact(parts=[DataPart(data=data)])`, so pydantic raises
`ValidationError` for a non-dict `data`. -/
def new_data_artifact (name description : String) (data : Json) (n : Nat) :
    Except ExecError Artifact :=
  match mkDataPart data with
  | .error e => .error e
  | .ok part =>
    .ok { artifactId := uuid4 n, name := name, description := description,
          parts := [part] }

/-- `a2a.utils.new_text_artifact name description text`. -/
def new_text_artifact (name description text : String) (n : Nat) : Artifact :=
  { artifactId := uuid4 n, name := name, description := description,
    parts := [.text (.str text)] }

/-! ### The LangChain message model (`langchain_core.messages`) -/

/-- `langchain_core.messages.tool.ToolCall`: a typed dict with keys
`name`, `args` and `id` (an optional string).  `args` is typed
`dict[str, Any]` in LangChain, so it is a dict by construction here,
which is why `DataPart(data=tool_call["args"])` never hits pydantic
validation. -/
structure ToolCall where
  name : String
  args : List (String × Json)
  id : Option String

/-- `langchain_core.messages.AIMessage`, reduced to the fields the
executor reads.  `id` is optional in LangChain. -/
structure AIMessage where
  id : Option String
  content : Json
  tool_calls : List ToolCall

/-- `langchain_core.messages.ToolMessage`, reduced to the fields the
executor reads. -/
structure ToolMessage where
  id : Option String
  content : Json
  tool_call_id : String
  name : Option String

/-- `AnyMessage`: the stream delivers AI messages, tool messages, and
other kinds (human, system, ...) the executor does not handle. -/
inductive LCMessage where
  | ai (m : AIMessage)
  | tool (m : ToolMessage)
  | other (id : Option String)

/-- `message.id`, uniform over the message kinds. -/
def LCMessage.id : LCMessage → Option String
  | .ai m => m.id
  | .tool m => m.id
  | .other i => i

/-! ### The executor's own data -/

/-- Modelled from the spec: `a2anet.types.langgraph.StructuredResponse`
(its defining module is not under `src/`); the spec gives it an outcome
state drawn from the task-state enum, a human-readable outcome message,
an artifact title, an artifact description, and an artifact output
payload (a string) — exactly the five attributes the executor reads. -/
structure StructuredResponse where
  task_state : TaskState
  task_state_message : String
  artifact_title : String
  artifact_description : String
  artifact_output : String

/-- `langgraph.types.StateSnapshot`, reduced to its `values` dict; the
only key the executor looks up holds an optional `StructuredResponse`,
and `(k, none)` models the key being present with value `None`. -/
structure StateSnapshot where
  values : List (String × Option StructuredResponse)

/-- Raw dict lookup: distinguishes a missing key from a key bound to
`None`. -/
def keyLookup : List (String × Option StructuredResponse) → String →
    Option (Option StructuredResponse)
  | [], _ => none
  | (k2, v) :: rest, k => if k2 = k then some v else keyLookup rest k

/-- Python `dict.get` on the state's `values`: a missing key and a key
bound to `None` both give `none`. -/
def dict_get (values : List (String × Option StructuredResponse)) (k : String) :
    Option StructuredResponse :=
  match keyLookup values k with
  | some v => v
  | none => none

/-- `RequestContext`, reduced to the fields `execute` reads. -/
structure RequestContext where
  message : Option ProtoMessage
  userInput : String
  currentTask : Option Task

/-! ### The handlers (`LangGraphAgentExecutor`) -/

/-- `_handle_ai_message`, loop body over a list-shaped `message.content`:
a plain string element is always emitted; a dict element is emitted when
`item.get("type") == "text"` and `item.get("text")` is truthy; every
other element shape is skipped.  Returns the events in order together
with the next fresh-name counter. -/
def handle_ai_items (items : List Json) (task : Task) (u : TaskUpdater) (n : Nat) :
    List Event × Nat :=
  match items with
  | [] => ([], n)
  | item :: rest =>
    match item with
    | .str s =>
      let (evs, n1) := handle_ai_items rest task u (n + 1)
      (update_status u .working
        (new_agent_text_message (.str s) task.contextId task.id n) false :: evs, n1)
    | .obj fields =>
      match dict_get_json fields "type", dict_get_json fields "text" with
      | some (.str t), some v =>
        if t = "text" ∧ truthy v = true then
          let (evs, n1) := handle_ai_items rest task u (n + 1)
          (update_status u .working
            (new_agent_text_message v task.contextId task.id n) false :: evs, n1)
        else handle_ai_items rest task u n
      | _, _ => handle_ai_items rest task u n
    | _ => handle_ai_items rest task u n

/-- `_handle_ai_message`, text portion: a single non-empty plain string
emits one event; a list is handled element-wise; any other content shape
(including the empty string) emits nothing. -/
def handle_ai_content (content : Json) (task : Task) (u : TaskUpdater) (n : Nat) :
    List Event × Nat :=
  match content with
  | .str s =>
    if s ≠ "" then
      ([update_status u .working
        (new_agent_text_message (.str s) task.contextId task.id n) false], n + 1)
    else ([], n)
  | .arr items => handle_ai_items items task u n
  | _ => ([], n)

/-- `_handle_tool_call`: one `working` status update whose message has a
single `DataPart` with the call's `args` verbatim and metadata
`{"type": "tool-call", "toolCallId": ..., "toolCallName": ...}`. -/
def handle_tool_call (tool_call : ToolCall) (task : Task) (u : TaskUpdater) (n : Nat) :
    Event × Nat :=
  (update_status u .working
    { role := .agent, parts := [.data (.obj tool_call.args)],
      metadata := some (.toolCall tool_call.id tool_call.name),
      messageId := uuid4 n, taskId := task.id, contextId := task.contextId } false,
   n + 1)

/-- `_handle_ai_message`, tool-call portion: forward each call in list
order. -/
def handle_tool_calls (tcs : List ToolCall) (task : Task) (u : TaskUpdater) (n : Nat) :
    List Event × Nat :=
  match tcs with
  | [] => ([], n)
  | tc :: rest =>
    let (ev, n1) := handle_tool_call tc task u n
    let (evs, n2) := handle_tool_calls rest task u n1
    (ev :: evs, n2)

/-- `_handle_ai_message`: emit the text events, then (when
`message.tool_calls` is non-empty, i.e. truthy) the tool-call events in
order. -/
def handle_ai_message (message : AIMessage) (task : Task) (u : TaskUpdater) (n : Nat) :
    List Event × Nat :=
  let (textEvs, n1) := handle_ai_content message.content task u n
  if message.tool_calls.isEmpty then (textEvs, n1)
  else
    let (tcEvs, n2) := handle_tool_calls message.tool_calls task u n1
    (textEvs ++ tcEvs, n2)

/-- The part a tool-result content becomes, in the `try`/`except` at
langgraph.py:167-172: `json.loads` success gives `DataPart(data=...)`
(pydantic rejects a non-dict parse result), a caught `JSONDecodeError`
or `TypeError` gives `TextPart(text=...)` on the raw content (pydantic
rejects non-string content); a `ValidationError` is not caught. -/
def toolResultPart (content : Json) : Except ExecError Part :=
  match jsonLoads content with
  | some v => mkDataPart v
  | none => mkTextPart content

/-- `_handle_tool_message`: build the part from the content
(`toolResultPart`; an escaping `ValidationError` propagates and nothing
is emitted), then emit one `working` status update tagged
`tool-call-result`. -/
def handle_tool_message (message : ToolMessage) (task : Task) (u : TaskUpdater)
    (n : Nat) : Except ExecError (Event × Nat) :=
  match toolResultPart message.content with
  | .error e => .error e
  | .ok part =>
    .ok (update_status u .working
      { role := .agent, parts := [part],
        metadata := some (.toolCallResult message.tool_call_id message.name),
        messageId := uuid4 n, taskId := task.id, contextId := task.contextId } false,
     n + 1)

/-- The `isinstance` dispatch in `execute`'s stream loop: `AIMessage`
and `ToolMessage` are handled, every other message kind is silently
ignored; an exception raised by a handler propagates. -/
def dispatch (m : LCMessage) (task : Task) (u : TaskUpdater) (n : Nat) :
    Except ExecError (List Event × Nat) :=
  match m with
  | .ai msg => .ok (handle_ai_message msg task u n)
  | .tool msg =>
    match handle_tool_message msg task u n with
    | .error e => .error e
    | .ok (ev, n1) => .ok ([ev], n1)
  | .other _ => .ok ([], n)

/-- The `async for` loop of `execute`: for each tick take the last
message of the accumulated list (an empty list would raise
`IndexError`), skip it if its id was already seen, otherwise record the
id and dispatch; an exception raised by a handler stops the run with
the events enqueued so far.  Returns the seen-id set, the events
emitted so far in order, the fresh-name counter, and the error that
stopped the loop, if any. -/
def stream_loop (task : Task) (u : TaskUpdater) :
    List (List LCMessage) → List (Option String) → List Event → Nat →
    List (Option String) × List Event × Nat × Option ExecError
  | [], seen, evs, n => (seen, evs, n, none)
  | tick :: rest, seen, evs, n =>
    match tick.getLast? with
    | none => (seen, evs, n, some .emptyMessageList)
    | some m =>
      if m.id ∈ seen then stream_loop task u rest seen evs n
      else
        match dispatch m task u n with
        | .error e => (m.id :: seen, evs, n, some e)
        | .ok (newEvs, n1) => stream_loop task u rest (m.id :: seen) (evs ++ newEvs) n1

/-- `_handle_structured_response_artifact`, the `try`/`except` at
langgraph.py:253-264: `json.loads` success feeds `new_data_artifact`
(whose pydantic `ValidationError` on a non-dict parse result is not in
the caught `(JSONDecodeError, TypeError)` set and propagates), a caught
parse failure falls back to `new_text_artifact` on the raw string; the
built artifact is enqueued as an artifact-update event bound to the
current task id and context id. -/
def handle_structured_response_artifact (structured_response : StructuredResponse)
    (task : Task) (n : Nat) : Except ExecError (Event × Nat) :=
  match jsonParse structured_response.artifact_output with
  | some v =>
    match new_data_artifact structured_response.artifact_title
        structured_response.artifact_description v n with
    | .error e => .error e
    | .ok artifact => .ok (.artifactUpdate artifact task.id task.contextId, n + 1)
  | none =>
    .ok (.artifactUpdate
      (new_text_artifact structured_response.artifact_title
        structured_response.artifact_description
        structured_response.artifact_output n) task.id task.contextId, n + 1)

/-- `_handle_structured_response`: read `structured_response` from the
post-stream state (`dict.get`); a falsy value (absent key or `None`) is
a fatal error; a non-completed outcome emits one final status update
with that state and the outcome message; a completed outcome emits the
artifact event and then the final completed status update — unless the
artifact builder raises, which propagates with nothing emitted. -/
def handle_structured_response (state : StateSnapshot) (task : Task)
    (u : TaskUpdater) (n : Nat) : List Event × Nat × Option ExecError :=
  match dict_get state.values "structured_response" with
  | none => ([], n, some .noStructuredResponse)
  | some sr =>
    if sr.task_state ≠ TaskState.completed then
      ([update_status u sr.task_state
          (new_agent_text_message (.str sr.task_state_message)
            task.contextId task.id n) true],
       n + 1, none)
    else
      match handle_structured_response_artifact sr task n with
      | .error e => ([], n, some e)
      | .ok (artEv, n1) =>
        ([artEv,
          update_status u .completed
            (new_agent_text_message (.str sr.task_state_message)
              task.contextId task.id n1) true],
         n1 + 1, none)

/-- The task-resolution step of `execute`: reuse `context.current_task`
when present, otherwise create a new task (`new_task` draws fresh ids,
modelled by the `freshTask` parameter) and enqueue it first. -/
def resolveTask (ctx : RequestContext) (freshTask : Task) : Task × List Event :=
  match ctx.currentTask with
  | some t => (t, [])
  | none => (freshTask, [Event.newTask freshTask])

/-- `execute`: the graph engine is external, so the run is parameterised
by the stream ticks it would deliver and by its post-stream state
snapshot.  Returns the events enqueued in order and the error raised,
if any; events enqueued before a raise remain visible. -/
def execute (ctx : RequestContext) (stream : List (List LCMessage))
    (finalState : StateSnapshot) (freshTask : Task) :
    List Event × Option ExecError :=
  match ctx.message with
  | none => ([], some .noMessageInContext)
  | some _ =>
    let (task, taskEvs) := resolveTask ctx freshTask
    let u : TaskUpdater := { taskId := task.id, contextId := task.contextId }
    match stream_loop task u stream [] [] 0 with
    | (_, streamEvs, _, some e) => (taskEvs ++ streamEvs, some e)
    | (_, streamEvs, n, none) =>
      match handle_structured_response finalState task u n with
      | (finEvs, _, ferr) => (taskEvs ++ streamEvs ++ finEvs, ferr)

/-- `cancel`: unconditionally raises, enqueuing nothing. -/
def cancel (_ctx : RequestContext) : List Event × Option ExecError :=
  ([], some .cancelNotSupported)

/-! ### Observations on events, and spec-side characterizations -/

/-- Whether an event is an artifact-update event. -/
def Event.isArtifact : Event → Bool
  | .artifactUpdate .. => true
  | _ => false

/-- Whether an event is a status update marked `final`. -/
def Event.isFinal : Event → Bool
  | .statusUpdate _ _ _ _ f => f
  | _ => false

/-- Whether an event is a non-final `working` status update. -/
def Event.isWorkingNonFinalStatus : Event → Bool
  | .statusUpdate _ _ .working _ false => true
  | _ => false

/-- The parts of the protocol message an event carries, if it is a
status update. -/
def Event.statusParts : Event → List Part
  | .statusUpdate _ _ _ msg _ => msg.parts
  | _ => []

/-- Spec-side: the text payloads a list-shaped assistant-message content
yields, in order — every plain string element, and the `text` field of
every dict element whose `type` is `"text"` and whose `text` field is
truthy; everything else is skipped. -/
def emittedTexts : List Json → List Json
  | [] => []
  | item :: rest =>
    match item with
    | .str s => .str s :: emittedTexts rest
    | .obj fields =>
      match dict_get_json fields "type", dict_get_json fields "text" with
      | some (.str t), some v =>
        if t = "text" ∧ truthy v = true then v :: emittedTexts rest
        else emittedTexts rest
      | _, _ => emittedTexts rest
    | _ => emittedTexts rest

/-- Spec-side: the text payloads an assistant-message content yields —
a single non-empty plain string yields itself, a list is handled
element-wise, every other shape yields nothing. -/
def emittedContentTexts : Json → List Json
  | .str s => if s ≠ "" then [.str s] else []
  | .arr items => emittedTexts items
  | _ => []

/-- Spec-side: one non-final `working` status event per text payload, in
order, each wrapping its payload as a single-part agent text message. -/
def wrapTexts : List Json → Task → TaskUpdater → Nat → List Event
  | [], _, _, _ => []
  | t :: ts, task, u, n =>
    update_status u .working (new_agent_text_message t task.contextId task.id n)
        false ::
      wrapTexts ts task u (n + 1)

/-- Spec-side: one non-final `working` status event per tool call, in
order, each carrying a single `DataPart` with the call's argument
payload verbatim and `tool-call` metadata with the call's id and
name. -/
def wrapToolCalls : List ToolCall → Task → TaskUpdater → Nat → List Event
  | [], _, _, _ => []
  | tc :: rest, task, u, n =>
    update_status u .working
      { role := .agent, parts := [.data (.obj tc.args)],
        metadata := some (.toolCall tc.id tc.name),
        messageId := uuid4 n, taskId := task.id, contextId := task.contextId }
        false ::
      wrapToolCalls rest task u (n + 1)

/-- The task one run of `execute` works with: the context's current
task, or the freshly created one. -/
def taskOf (ctx : RequestContext) (freshTask : Task) : Task :=
  (resolveTask ctx freshTask).1

/-- The `TaskUpdater` one run of `execute` builds. -/
def updaterOf (ctx : RequestContext) (freshTask : Task) : TaskUpdater :=
  { taskId := (taskOf ctx freshTask).id,
    contextId := (taskOf ctx freshTask).contextId }

/-! ### Concrete inputs for the closed-instance checks -/

/-- A concrete task for closed instances. -/
def wTask : Task := Task.mk "t1" "c1"

/-- A concrete incoming protocol message for closed instances. -/
def wMsg : ProtoMessage := ProtoMessage.mk Role.user [] none "m0" "t1" "c1"

/-- A concrete request context (message present, task present). -/
def wCtx : RequestContext := RequestContext.mk (some wMsg) "q" (some wTask)

/-- A concrete fresh task for closed instances. -/
def wFresh : Task := Task.mk "tf" "cf"

/-- A completed structured response for closed instances. -/
def wSRCompleted : StructuredResponse :=
  StructuredResponse.mk TaskState.completed "ok" "ttl" "dsc" "out"

/-- A non-completed (input-required) structured response. -/
def wSRInput : StructuredResponse :=
  StructuredResponse.mk TaskState.inputRequired "need more info" "ttl" "dsc" "out"

/-- A state snapshot holding the completed response. -/
def wStateCompleted : StateSnapshot :=
  StateSnapshot.mk [("structured_response", some wSRCompleted)]

/-- A state snapshot holding the input-required response. -/
def wStateInput : StateSnapshot :=
  StateSnapshot.mk [("structured_response", some wSRInput)]

/-- A completed structured response whose artifact output `5` is valid
JSON but parses to a non-object. -/
def wSRBadOut : StructuredResponse :=
  StructuredResponse.mk TaskState.completed "ok" "ttl" "dsc" "5"

/-- A state snapshot holding the completed response with the non-object
artifact output. -/
def wStateBadOut : StateSnapshot :=
  StateSnapshot.mk [("structured_response", some wSRBadOut)]

/-- A state snapshot whose `structured_response` key is present but
bound to `None`. -/
def wStateNone : StateSnapshot := StateSnapshot.mk [("structured_response", none)]

/-- A state snapshot with no `structured_response` key at all. -/
def wStateAbsent : StateSnapshot := StateSnapshot.mk []

/-! ### Helper lemmas -/

theorem handle_ai_items_eq (items : List Json) (task : Task) (u : TaskUpdater) :
    ∀ n, handle_ai_items items task u n =
      (wrapTexts (emittedTexts items) task u n, n + (emittedTexts items).length) := by
  induction items with
  | nil => intro n; simp [handle_ai_items, emittedTexts, wrapTexts]
  | cons item rest ih =>
    intro n
    cases item with
    | str s =>
      simp only [handle_ai_items, emittedTexts, wrapTexts, ih]
      simp [Nat.add_comm, Nat.add_assoc, Nat.add_left_comm]
    | obj fields =>
      simp only [handle_ai_items, emittedTexts]
      cases htype : dict_get_json fields "type" with
      | none => simp [htype, ih]
      | some tv =>
        cases htext : dict_get_json fields "text" with
        | none => cases tv <;> simp [htype, htext, ih]
        | some v =>
          cases tv with
          | str t =>
            by_cases hcond : t = "text" ∧ truthy v = true
            · simp only [htype, htext, if_pos hcond, ih, wrapTexts]
              simp [Nat.add_comm, Nat.add_assoc, Nat.add_left_comm]
            · simp [htype, htext, if_neg hcond, ih]
          | null => simp [htype, htext, ih]
          | bool b => simp [htype, htext, ih]
          | num m => simp [htype, htext, ih]
          | float m e => simp [htype, htext, ih]
          | nan => simp [htype, htext, ih]
          | infinity ng => simp [htype, htext, ih]
          | arr xs => simp [htype, htext, ih]
          | obj fs => simp [htype, htext, ih]
    | null => simp [handle_ai_items, emittedTexts, ih]
    | bool b => simp [handle_ai_items, emittedTexts, ih]
    | num m => simp [handle_ai_items, emittedTexts, ih]
    | float m e => simp [handle_ai_items, emittedTexts, ih]
    | nan => simp [handle_ai_items, emittedTexts, ih]
    | infinity ng => simp [handle_ai_items, emittedTexts, ih]
    | arr xs => simp [handle_ai_items, emittedTexts, ih]

theorem handle_ai_content_eq (content : Json) (task : Task) (u : TaskUpdater)
    (n : Nat) :
    handle_ai_content content task u n =
      (wrapTexts (emittedContentTexts content) task u n,
       n + (emittedContentTexts content).length) := by
  cases content with
  | str s =>
    by_cases h : s = ""
    · simp [handle_ai_content, emittedContentTexts, wrapTexts, h]
    · simp [handle_ai_content, emittedContentTexts, wrapTexts, h]
  | arr items => simpa [handle_ai_content, emittedContentTexts]
      using handle_ai_items_eq items task u n
  | null => simp [handle_ai_content, emittedContentTexts, wrapTexts]
  | bool b => simp [handle_ai_content, emittedContentTexts, wrapTexts]
  | num m => simp [handle_ai_content, emittedContentTexts, wrapTexts]
  | float m e => simp [handle_ai_content, emittedContentTexts, wrapTexts]
  | nan => simp [handle_ai_content, emittedContentTexts, wrapTexts]
  | infinity ng => simp [handle_ai_content, emittedContentTexts, wrapTexts]
  | obj fs => simp [handle_ai_content, emittedContentTexts, wrapTexts]

theorem handle_tool_calls_eq (tcs : List ToolCall) (task : Task) (u : TaskUpdater) :
    ∀ n, handle_tool_calls tcs task u n =
      (wrapToolCalls tcs task u n, n + tcs.length) := by
  induction tcs with
  | nil => intro n; simp [handle_tool_calls, wrapToolCalls]
  | cons tc rest ih =>
    intro n
    simp only [handle_tool_calls, handle_tool_call, wrapToolCalls, ih]
    simp [Nat.add_comm, Nat.add_assoc, Nat.add_left_comm, List.length_cons]

theorem handle_ai_message_eq (msg : AIMessage) (task : Task) (u : TaskUpdater)
    (n : Nat) :
    handle_ai_message msg task u n =
      (wrapTexts (emittedContentTexts msg.content) task u n ++
         wrapToolCalls msg.tool_calls task u
           (n + (emittedContentTexts msg.content).length),
       n + (emittedContentTexts msg.content).length + msg.tool_calls.length) := by
  cases htc : msg.tool_calls with
  | nil =>
    simp [handle_ai_message, htc, handle_ai_content_eq, wrapToolCalls]
  | cons tc rest =>
    simp [handle_ai_message, htc, handle_ai_content_eq, handle_tool_calls_eq,
      List.isEmpty_cons]

theorem wrapTexts_shape (ts : List Json) (task : Task) (u : TaskUpdater) :
    ∀ n, ∀ e ∈ wrapTexts ts task u n, e.isWorkingNonFinalStatus = true := by
  induction ts with
  | nil => intro n e he; simp [wrapTexts] at he
  | cons t rest ih =>
    intro n e he
    simp only [wrapTexts, List.mem_cons] at he
    rcases he with rfl | he
    · rfl
    · exact ih (n + 1) e he

theorem wrapToolCalls_shape (tcs : List ToolCall) (task : Task) (u : TaskUpdater) :
    ∀ n, ∀ e ∈ wrapToolCalls tcs task u n, e.isWorkingNonFinalStatus = true := by
  induction tcs with
  | nil => intro n e he; simp [wrapToolCalls] at he
  | cons tc rest ih =>
    intro n e he
    simp only [wrapToolCalls, List.mem_cons] at he
    rcases he with rfl | he
    · rfl
    · exact ih (n + 1) e he

theorem handle_tool_message_ok_shape (message : ToolMessage) (task : Task)
    (u : TaskUpdater) (n : Nat) (ev : Event) (n1 : Nat)
    (h : handle_tool_message message task u n = .ok (ev, n1)) :
    ev.isWorkingNonFinalStatus = true ∧ n1 = n + 1 := by
  cases hp : toolResultPart message.content with
  | error e2 => simp [handle_tool_message, hp] at h
  | ok part =>
    simp only [handle_tool_message, hp, Except.ok.injEq, Prod.mk.injEq] at h
    exact ⟨h.1 ▸ rfl, h.2.symm⟩

theorem dispatch_shape (m : LCMessage) (task : Task) (u : TaskUpdater) (n : Nat)
    (evs : List Event) (n1 : Nat) (h : dispatch m task u n = .ok (evs, n1)) :
    ∀ e ∈ evs, e.isWorkingNonFinalStatus = true := by
  intro e he
  cases m with
  | ai msg =>
    have h2 : handle_ai_message msg task u n = (evs, n1) := by
      simpa [dispatch] using h
    have h3 : evs = wrapTexts (emittedContentTexts msg.content) task u n ++
        wrapToolCalls msg.tool_calls task u
          (n + (emittedContentTexts msg.content).length) := by
      rw [handle_ai_message_eq] at h2
      exact (congrArg Prod.fst h2).symm
    rw [h3] at he
    rcases List.mem_append.mp he with he | he
    · exact wrapTexts_shape _ task u _ e he
    · exact wrapToolCalls_shape _ task u _ e he
  | tool msg =>
    cases hmt : handle_tool_message msg task u n with
    | error e2 => simp [dispatch, hmt] at h
    | ok p =>
      obtain ⟨ev, n2⟩ := p
      simp only [dispatch, hmt, Except.ok.injEq, Prod.mk.injEq] at h
      rw [← h.1, List.mem_singleton] at he
      rw [he]
      exact (handle_tool_message_ok_shape msg task u n ev n2 hmt).1
  | other i =>
    simp only [dispatch, Except.ok.injEq, Prod.mk.injEq] at h
    rw [← h.1] at he
    cases he

theorem working_event_shape (e : Event) (h : e.isWorkingNonFinalStatus = true) :
    e.isFinal = false ∧ e.isArtifact = false := by
  cases e with
  | newTask t => exact ⟨rfl, rfl⟩
  | artifactUpdate a tid cid => simp [Event.isWorkingNonFinalStatus] at h
  | statusUpdate tid cid st msg f =>
    cases st <;> cases f <;>
      simp_all [Event.isWorkingNonFinalStatus, Event.isFinal, Event.isArtifact]

theorem stream_loop_events (task : Task) (u : TaskUpdater) :
    ∀ (ticks : List (List LCMessage)) (seen : List (Option String))
      (evs : List Event) (n : Nat),
      ∃ extra : List Event,
        (stream_loop task u ticks seen evs n).2.1 = evs ++ extra ∧
        ∀ e ∈ extra, e.isWorkingNonFinalStatus = true := by
  intro ticks
  induction ticks with
  | nil => intro seen evs n; exact ⟨[], by simp [stream_loop], by simp⟩
  | cons tick rest ih =>
    intro seen evs n
    cases hlast : tick.getLast? with
    | none => exact ⟨[], by simp [stream_loop, hlast], by simp⟩
    | some m =>
      by_cases hmem : m.id ∈ seen
      · have := ih seen evs n
        simpa [stream_loop, hlast, hmem] using this
      · cases hd : dispatch m task u n with
        | error e2 =>
          refine ⟨[], ?_, by simp⟩
          simp [stream_loop, hlast, hmem, hd]
        | ok p =>
          obtain ⟨devs, dn⟩ := p
          obtain ⟨extra, hev, hsh⟩ := ih (m.id :: seen) (evs ++ devs) dn
          refine ⟨devs ++ extra, ?_, ?_⟩
          · simp only [stream_loop, hlast, hmem, if_neg hmem, hd]
            simpa [List.append_assoc] using hev
          · intro e he
            rcases List.mem_append.mp he with he | he
            · exact dispatch_shape m task u n devs dn hd e he
            · exact hsh e he

theorem wrapTexts_length (ts : List Json) (task : Task) (u : TaskUpdater) :
    ∀ n, (wrapTexts ts task u n).length = ts.length := by
  induction ts with
  | nil => intro n; simp [wrapTexts]
  | cons t rest ih => intro n; simp [wrapTexts, ih]

theorem wrapToolCalls_length (tcs : List ToolCall) (task : Task) (u : TaskUpdater) :
    ∀ n, (wrapToolCalls tcs task u n).length = tcs.length := by
  induction tcs with
  | nil => intro n; simp [wrapToolCalls]
  | cons tc rest ih => intro n; simp [wrapToolCalls, ih]

theorem stream_loop_append (task : Task) (u : TaskUpdater) :
    ∀ (t1 t2 : List (List LCMessage)) (seen : List (Option String))
      (evs : List Event) (n : Nat),
      stream_loop task u (t1 ++ t2) seen evs n =
        match stream_loop task u t1 seen evs n with
        | (seen1, evs1, n1, none) => stream_loop task u t2 seen1 evs1 n1
        | (seen1, evs1, n1, some e) => (seen1, evs1, n1, some e) := by
  intro t1
  induction t1 with
  | nil => intro t2 seen evs n; simp [stream_loop]
  | cons tick rest ih =>
    intro t2 seen evs n
    cases hlast : tick.getLast? with
    | none => simp [stream_loop, hlast]
    | some m =>
      by_cases hmem : m.id ∈ seen
      · simpa [stream_loop, hlast, hmem] using ih t2 seen evs n
      · cases hd : dispatch m task u n with
        | error e2 => simp [stream_loop, hlast, hmem, hd]
        | ok p =>
          obtain ⟨devs, dn⟩ := p
          simpa [stream_loop, hlast, hmem, hd] using
            ih t2 (m.id :: seen) (evs ++ devs) dn

theorem resolveTask_events (ctx : RequestContext) (ft : Task) :
    ∀ e ∈ (resolveTask ctx ft).2, e.isArtifact = false ∧ e.isFinal = false := by
  intro e he
  cases hct : ctx.currentTask with
  | none =>
    simp only [resolveTask, hct, List.mem_singleton] at he
    subst he; exact ⟨rfl, rfl⟩
  | some t => simp [resolveTask, hct] at he

theorem stream_loop_start_events (task : Task) (u : TaskUpdater)
    (stream : List (List LCMessage)) (seen1 : List (Option String))
    (evs1 : List Event) (n1 : Nat) (err : Option ExecError)
    (hloop : stream_loop task u stream [] [] 0 = (seen1, evs1, n1, err)) :
    ∀ e ∈ evs1, e.isWorkingNonFinalStatus = true := by
  intro e he
  obtain ⟨extra, heq, hsh⟩ := stream_loop_events task u stream [] [] 0
  rw [hloop] at heq
  simp only [List.nil_append] at heq
  exact hsh e (heq ▸ he)

theorem execute_unfold (ctx : RequestContext) (stream : List (List LCMessage))
    (finalState : StateSnapshot) (freshTask : Task) (pm : ProtoMessage)
    (seen1 : List (Option String)) (evs1 : List Event) (n1 : Nat)
    (hmsg : ctx.message = some pm)
    (hloop : stream_loop (taskOf ctx freshTask) (updaterOf ctx freshTask)
        stream [] [] 0 = (seen1, evs1, n1, none)) :
    execute ctx stream finalState freshTask =
      ((resolveTask ctx freshTask).2 ++ evs1 ++
         (handle_structured_response finalState (taskOf ctx freshTask)
           (updaterOf ctx freshTask) n1).1,
       (handle_structured_response finalState (taskOf ctx freshTask)
         (updaterOf ctx freshTask) n1).2.2) := by
  cases hct : ctx.currentTask with
  | some t =>
    simp only [taskOf, updaterOf, resolveTask, hct] at hloop ⊢
    simp only [execute, hmsg, resolveTask, hct, hloop]
  | none =>
    simp only [taskOf, updaterOf, resolveTask, hct] at hloop ⊢
    simp only [execute, hmsg, resolveTask, hct, hloop]

/-! ### The claims -/

/-- C2 counterexample: for tool-result content `5` — valid JSON whose
parsed value is not an object — `DataPart(data=5)` raises a pydantic
validation error that no `except` clause catches, so the handler raises
and emits nothing, refuting "emits exactly one working status event and
never raises". -/
theorem c2_tool_result_counterexample :
    jsonLoads (Json.str "5") = some (Json.num 5) ∧
    handle_tool_message (ToolMessage.mk (some "m1") (Json.str "5") "tc1" (some "t"))
      wTask (TaskUpdater.mk "t1" "c1") 0 = .error ExecError.validationError :=
  ⟨rfl, rfl⟩

/-- C2 (amended): for every tool-result message — if the content parses
as JSON to an object, the handler emits exactly one non-final `working`
status event whose single part is a structured-data payload equal to
the parsed object; if the content is a string that fails to parse as
JSON, it emits exactly one such event whose single part is the raw
content as a plain-text payload (content `{"a":1}` yields data
`{"a":1}`, content `not json` yields text `not json`); but if the
content parses to a non-object JSON value, or fails to parse and is not
a string, the handler raises a validation error and emits no event. -/
theorem c2_tool_result_fallback (message : ToolMessage) (task : Task)
    (u : TaskUpdater) (n : Nat) :
    (∀ fields, jsonLoads message.content = some (Json.obj fields) →
      ∃ ev, handle_tool_message message task u n = .ok (ev, n + 1) ∧
        ev.isWorkingNonFinalStatus = true ∧
        ev.statusParts = [Part.data (Json.obj fields)]) ∧
    (∀ s, message.content = Json.str s → jsonParse s = none →
      ∃ ev, handle_tool_message message task u n = .ok (ev, n + 1) ∧
        ev.isWorkingNonFinalStatus = true ∧
        ev.statusParts = [Part.text (Json.str s)]) ∧
    (∀ v, jsonLoads message.content = some v → (∀ fields, v ≠ Json.obj fields) →
      handle_tool_message message task u n = .error ExecError.validationError) ∧
    (jsonLoads message.content = none → (∀ s, message.content ≠ Json.str s) →
      handle_tool_message message task u n = .error ExecError.validationError) ∧
    (handle_tool_message
        (ToolMessage.mk (some "mid") (Json.str "\x7b\"a\":1\x7d") "tc" (some "t"))
        task u n).map (fun p => p.1.statusParts) =
      .ok [Part.data (Json.obj [("a", Json.num 1)])] ∧
    (handle_tool_message
        (ToolMessage.mk (some "mid") (Json.str "not json") "tc" (some "t"))
        task u n).map (fun p => p.1.statusParts) =
      .ok [Part.text (Json.str "not json")] := by
  refine ⟨?_, ?_, ?_, ?_, rfl, rfl⟩
  · intro fields hv
    refine ⟨update_status u .working
      { role := .agent, parts := [Part.data (Json.obj fields)],
        metadata := some (.toolCallResult message.tool_call_id message.name),
        messageId := uuid4 n, taskId := task.id, contextId := task.contextId }
      false, ?_, rfl, rfl⟩
    simp [handle_tool_message, toolResultPart, hv, mkDataPart]
  · intro s hs hp
    refine ⟨update_status u .working
      { role := .agent, parts := [Part.text (Json.str s)],
        metadata := some (.toolCallResult message.tool_call_id message.name),
        messageId := uuid4 n, taskId := task.id, contextId := task.contextId }
      false, ?_, rfl, rfl⟩
    simp [handle_tool_message, toolResultPart, hs, jsonLoads, hp, mkTextPart]
  · intro v hv hnobj
    cases v with
    | obj fields => exact absurd rfl (hnobj fields)
    | null => simp [handle_tool_message, toolResultPart, hv, mkDataPart]
    | bool b => simp [handle_tool_message, toolResultPart, hv, mkDataPart]
    | num m => simp [handle_tool_message, toolResultPart, hv, mkDataPart]
    | float m e => simp [handle_tool_message, toolResultPart, hv, mkDataPart]
    | nan => simp [handle_tool_message, toolResultPart, hv, mkDataPart]
    | infinity ng => simp [handle_tool_message, toolResultPart, hv, mkDataPart]
    | str s => simp [handle_tool_message, toolResultPart, hv, mkDataPart]
    | arr xs => simp [handle_tool_message, toolResultPart, hv, mkDataPart]
  · intro hv hnstr
    cases hc : message.content with
    | str s => exact absurd hc (hnstr s)
    | null => simp [handle_tool_message, toolResultPart, jsonLoads, hv, hc, mkTextPart]
    | bool b => simp [handle_tool_message, toolResultPart, jsonLoads, hv, hc, mkTextPart]
    | num m => simp [handle_tool_message, toolResultPart, jsonLoads, hv, hc, mkTextPart]
    | float m e => simp [handle_tool_message, toolResultPart, jsonLoads, hv, hc, mkTextPart]
    | nan => simp [handle_tool_message, toolResultPart, jsonLoads, hv, hc, mkTextPart]
    | infinity ng => simp [handle_tool_message, toolResultPart, jsonLoads, hv, hc, mkTextPart]
    | arr xs => simp [handle_tool_message, toolResultPart, jsonLoads, hv, hc, mkTextPart]
    | obj fs => simp [handle_tool_message, toolResultPart, jsonLoads, hv, hc, mkTextPart]

theorem c2_tool_result_fallback_witness :
    (ToolMessage.mk (some "m1") (Json.str "not json") "tc1" (some "calc")).content =
      Json.str "not json" ∧
    jsonParse "not json" = none ∧
    ∃ ev, handle_tool_message
        (ToolMessage.mk (some "m1") (Json.str "not json") "tc1" (some "calc"))
        (Task.mk "t1" "c1") (TaskUpdater.mk "t1" "c1") 0 = .ok (ev, 0 + 1) ∧
      ev.isWorkingNonFinalStatus = true ∧
      ev.statusParts = [Part.text (Json.str "not json")] :=
  ⟨rfl, rfl,
   (c2_tool_result_fallback
      (ToolMessage.mk (some "m1") (Json.str "not json") "tc1" (some "calc"))
      (Task.mk "t1" "c1") (TaskUpdater.mk "t1" "c1") 0).2.1 "not json" rfl rfl⟩

/-- C4 counterexample: for artifact output `5` — valid JSON whose
parsed value is not an object — `new_data_artifact` raises a pydantic
validation error inside the `try`, which the
`except (JSONDecodeError, TypeError)` does not catch, so the builder
raises and produces no artifact, refuting "never raises". -/
theorem c4_artifact_counterexample :
    jsonParse "5" = some (Json.num 5) ∧
    handle_structured_response_artifact
        (StructuredResponse.mk TaskState.completed "done" "ttl" "dsc" "5")
        wTask 0 = .error ExecError.validationError :=
  ⟨rfl, rfl⟩

/-- C4 (amended): the artifact builder parses the artifact output
payload as JSON — if it parses to an object, it builds a data-shaped
artifact carrying the parsed object, and on parse failure it builds a
text-shaped artifact carrying the raw string, in both cases with the
response's title and description, enqueued bound to the current task id
and context id; but if the payload parses to a non-object JSON value,
the builder raises a validation error instead of producing an
artifact. -/
theorem c4_artifact_parse_fallback (sr : StructuredResponse) (task : Task)
    (n : Nat) :
    (∀ fields, jsonParse sr.artifact_output = some (Json.obj fields) →
      ∃ a : Artifact,
        handle_structured_response_artifact sr task n =
          .ok (Event.artifactUpdate a task.id task.contextId, n + 1) ∧
        a.name = sr.artifact_title ∧
        a.description = sr.artifact_description ∧
        a.parts = [Part.data (Json.obj fields)]) ∧
    (jsonParse sr.artifact_output = none →
      ∃ a : Artifact,
        handle_structured_response_artifact sr task n =
          .ok (Event.artifactUpdate a task.id task.contextId, n + 1) ∧
        a.name = sr.artifact_title ∧
        a.description = sr.artifact_description ∧
        a.parts = [Part.text (Json.str sr.artifact_output)]) ∧
    (∀ v, jsonParse sr.artifact_output = some v → (∀ fields, v ≠ Json.obj fields) →
      handle_structured_response_artifact sr task n =
        .error ExecError.validationError) := by
  refine ⟨?_, ?_, ?_⟩
  · intro fields hp
    refine ⟨Artifact.mk (uuid4 n) sr.artifact_title sr.artifact_description
      [Part.data (Json.obj fields)], ?_, rfl, rfl, rfl⟩
    simp [handle_structured_response_artifact, hp, new_data_artifact, mkDataPart]
  · intro hp
    refine ⟨new_text_artifact sr.artifact_title sr.artifact_description
      sr.artifact_output n, ?_, rfl, rfl, rfl⟩
    simp [handle_structured_response_artifact, hp]
  · intro v hp hnobj
    cases v with
    | obj fields => exact absurd rfl (hnobj fields)
    | null =>
      simp [handle_structured_response_artifact, hp, new_data_artifact, mkDataPart]
    | bool b =>
      simp [handle_structured_response_artifact, hp, new_data_artifact, mkDataPart]
    | num m =>
      simp [handle_structured_response_artifact, hp, new_data_artifact, mkDataPart]
    | float m e =>
      simp [handle_structured_response_artifact, hp, new_data_artifact, mkDataPart]
    | nan =>
      simp [handle_structured_response_artifact, hp, new_data_artifact, mkDataPart]
    | infinity ng =>
      simp [handle_structured_response_artifact, hp, new_data_artifact, mkDataPart]
    | str s =>
      simp [handle_structured_response_artifact, hp, new_data_artifact, mkDataPart]
    | arr xs =>
      simp [handle_structured_response_artifact, hp, new_data_artifact, mkDataPart]

theorem c4_artifact_parse_fallback_witness :
    jsonParse "plain text" = none ∧
    ∃ a : Artifact,
      handle_structured_response_artifact
          (StructuredResponse.mk TaskState.completed "done" "ttl" "dsc" "plain text")
          (Task.mk "t1" "c1") 0 =
        .ok (Event.artifactUpdate a "t1" "c1", 0 + 1) ∧
      a.name = "ttl" ∧
      a.description = "dsc" ∧
      a.parts = [Part.text (Json.str "plain text")] := by
  refine ⟨rfl, ?_⟩
  obtain ⟨a, h1, h2, h3, h4⟩ := (c4_artifact_parse_fallback
    (StructuredResponse.mk TaskState.completed "done" "ttl" "dsc" "plain text")
    (Task.mk "t1" "c1") 0).2.1 rfl
  exact ⟨a, h1, h2, h3, h4⟩

/-- C7: for an assistant message whose content is a single non-empty
plain string, exactly one `working` status event wrapping that string
is emitted; for a list-shaped content, exactly one `working` status
event is emitted per plain-string element and per dict fragment whose
`type` is `"text"` with a truthy `text` field, in the original list
order, with every other element shape skipped; and an assistant message
with empty or absent text and no tool calls produces zero events. -/
theorem c7_ai_text_events (task : Task) (u : TaskUpdater) (n : Nat) :
    (∀ s : String, s ≠ "" →
      handle_ai_content (Json.str s) task u n =
        ([update_status u .working
            (new_agent_text_message (Json.str s) task.contextId task.id n) false],
         n + 1)) ∧
    (∀ (mid : Option String) (items : List Json),
      (handle_ai_message (AIMessage.mk mid (Json.arr items) []) task u n).1 =
        wrapTexts (emittedTexts items) task u n ∧
      (handle_ai_message (AIMessage.mk mid (Json.arr items) []) task u n).1.length =
        (emittedTexts items).length) ∧
    (∀ (mid : Option String) (content : Json),
      content = Json.str "" ∨ content = Json.arr [] ∨ content = Json.null →
      handle_ai_message (AIMessage.mk mid content []) task u n = ([], n)) := by
  refine ⟨?_, ?_, ?_⟩
  · intro s hs
    simp [handle_ai_content, hs]
  · intro mid items
    constructor
    · simp [handle_ai_message_eq, emittedContentTexts, wrapToolCalls]
    · simp [handle_ai_message_eq, emittedContentTexts, wrapToolCalls,
        wrapTexts_length]
  · intro mid content hc
    rcases hc with rfl | rfl | rfl
    · simp [handle_ai_message, handle_ai_content]
    · simp [handle_ai_message, handle_ai_content, handle_ai_items]
    · simp [handle_ai_message, handle_ai_content]

theorem c7_ai_text_events_witness :
    ("hello" ≠ "") ∧
    handle_ai_content (Json.str "hello") (Task.mk "t1" "c1")
        (TaskUpdater.mk "t1" "c1") 0 =
      ([update_status (TaskUpdater.mk "t1" "c1") .working
          (new_agent_text_message (Json.str "hello") "c1" "t1" 0) false],
       0 + 1) :=
  ⟨by decide,
   (c7_ai_text_events (Task.mk "t1" "c1") (TaskUpdater.mk "t1" "c1") 0).1 "hello"
     (by decide)⟩

/-- C8: for every assistant message, the tool-call events come after
all text events, one per entry of the message's tool-call list in its
original order, and each is a non-final `working` status event whose
single part is a structured-data payload equal to the call's argument
payload verbatim, with `tool-call` metadata carrying the call's id and
name (the shape recorded by `wrapToolCalls`). -/
theorem c8_tool_call_projection (msg : AIMessage) (task : Task) (u : TaskUpdater)
    (n : Nat) :
    ∃ k : Nat,
      (handle_ai_message msg task u n).1 =
        (handle_ai_content msg.content task u n).1 ++
          wrapToolCalls msg.tool_calls task u k ∧
      (wrapToolCalls msg.tool_calls task u k).length = msg.tool_calls.length ∧
      ∀ e ∈ wrapToolCalls msg.tool_calls task u k,
        e.isWorkingNonFinalStatus = true := by
  refine ⟨n + (emittedContentTexts msg.content).length, ?_,
    wrapToolCalls_length msg.tool_calls task u _, wrapToolCalls_shape msg.tool_calls task u _⟩
  simp [handle_ai_message_eq, handle_ai_content_eq]

theorem c8_tool_call_projection_witness :
    ∃ k : Nat,
      (handle_ai_message (AIMessage.mk (some "a1") (Json.str "calling")
          [ToolCall.mk "search" [("q", Json.str "x")] (some "call1")])
          wTask (TaskUpdater.mk "t1" "c1") 0).1 =
        (handle_ai_content (Json.str "calling") wTask
            (TaskUpdater.mk "t1" "c1") 0).1 ++
          wrapToolCalls
            [ToolCall.mk "search" [("q", Json.str "x")] (some "call1")]
            wTask (TaskUpdater.mk "t1" "c1") k ∧
      (wrapToolCalls
          [ToolCall.mk "search" [("q", Json.str "x")] (some "call1")]
          wTask (TaskUpdater.mk "t1" "c1") k).length =
        [ToolCall.mk "search" [("q", Json.str "x")] (some "call1")].length ∧
      ∀ e ∈ wrapToolCalls
          [ToolCall.mk "search" [("q", Json.str "x")] (some "call1")]
          wTask (TaskUpdater.mk "t1" "c1") k,
        e.isWorkingNonFinalStatus = true :=
  c8_tool_call_projection
    (AIMessage.mk (some "a1") (Json.str "calling")
      [ToolCall.mk "search" [("q", Json.str "x")] (some "call1")])
    wTask (TaskUpdater.mk "t1" "c1") 0

/-- C9: a request that carries no message makes `execute` raise the
missing-input error immediately: no sink event of any kind is emitted
before the failure. -/
theorem c9_missing_message (ctx : RequestContext) (stream : List (List LCMessage))
    (finalState : StateSnapshot) (freshTask : Task)
    (h : ctx.message = none) :
    execute ctx stream finalState freshTask =
      ([], some ExecError.noMessageInContext) := by
  simp [execute, h]

theorem c9_missing_message_witness :
    execute (RequestContext.mk none "hi" none) [] (StateSnapshot.mk [])
        (Task.mk "t1" "c1") = ([], some ExecError.noMessageInContext) :=
  c9_missing_message (RequestContext.mk none "hi" none) [] (StateSnapshot.mk [])
    (Task.mk "t1" "c1") rfl

/-- C1: within one run of `execute`, a stream tick whose last message
has an id that was already dispatched earlier in the same run produces
no additional sink events: inserting such a re-delivery tick anywhere
after the point where the id was first seen leaves the whole result of
`execute` unchanged. -/
theorem c1_message_id_dedup (ctx : RequestContext)
    (t1 t2 : List (List LCMessage)) (tick : List LCMessage)
    (finalState : StateSnapshot) (freshTask : Task) (m : LCMessage)
    (seen1 : List (Option String)) (evs1 : List Event) (n1 : Nat)
    (hloop : stream_loop (taskOf ctx freshTask) (updaterOf ctx freshTask)
        t1 [] [] 0 = (seen1, evs1, n1, none))
    (hlast : tick.getLast? = some m)
    (hm : m.id ∈ seen1) :
    execute ctx (t1 ++ tick :: t2) finalState freshTask =
      execute ctx (t1 ++ t2) finalState freshTask := by
  cases hmsg : ctx.message with
  | none => simp [execute, hmsg]
  | some pm =>
    cases hct : ctx.currentTask with
    | some t =>
      simp only [taskOf, updaterOf, resolveTask, hct] at hloop
      simp only [execute, hmsg, resolveTask, hct]
      rw [stream_loop_append, stream_loop_append, hloop]
      simp [stream_loop, hlast, hm]
    | none =>
      simp only [taskOf, updaterOf, resolveTask, hct] at hloop
      simp only [execute, hmsg, resolveTask, hct]
      rw [stream_loop_append, stream_loop_append, hloop]
      simp [stream_loop, hlast, hm]

theorem c1_message_id_dedup_witness :
    ([LCMessage.other (some "x")] : List LCMessage).getLast? =
      some (LCMessage.other (some "x")) ∧
    (LCMessage.other (some "x")).id ∈ [some "x"] ∧
    execute wCtx ([[LCMessage.other (some "x")]] ++
        [LCMessage.other (some "x")] :: []) wStateCompleted wFresh =
      execute wCtx ([[LCMessage.other (some "x")]] ++ []) wStateCompleted wFresh :=
  ⟨rfl, by simp [LCMessage.id],
   c1_message_id_dedup wCtx [[LCMessage.other (some "x")]] []
     [LCMessage.other (some "x")] wStateCompleted wFresh
     (LCMessage.other (some "x")) [some "x"] [] 0 rfl rfl
     (by simp [LCMessage.id])⟩

/-- C3 counterexample: an execution whose structured response is
completed but whose artifact output `5` parses to a non-object emits
zero artifact events and zero final status events — `new_data_artifact`
raises an uncaught validation error — refuting "exactly one artifact
event is emitted" for every completed execution. -/
theorem c3_completed_counterexample :
    dict_get wStateBadOut.values "structured_response" = some wSRBadOut ∧
    wSRBadOut.task_state = TaskState.completed ∧
    execute wCtx [] wStateBadOut wFresh = ([], some ExecError.validationError) :=
  ⟨rfl, rfl, rfl⟩

/-- C3 (amended): when the structured response's outcome state is
`completed` and its artifact output either fails to parse as JSON or
parses to a JSON object, the run emits exactly one artifact event,
strictly before the final completed status event: the event list is a
prefix with no artifact and no final event, then the artifact event,
then last the final completed status update carrying the response's
human-readable message, and `execute` raises nothing (an output parsing
to a non-object JSON value instead raises a validation error with
neither an artifact nor a final status emitted). -/
theorem c3_artifact_before_completed (ctx : RequestContext)
    (stream : List (List LCMessage)) (finalState : StateSnapshot)
    (freshTask : Task) (pm : ProtoMessage) (sr : StructuredResponse)
    (seen1 : List (Option String)) (evs1 : List Event) (n1 : Nat)
    (hmsg : ctx.message = some pm)
    (hloop : stream_loop (taskOf ctx freshTask) (updaterOf ctx freshTask)
        stream [] [] 0 = (seen1, evs1, n1, none))
    (hsr : dict_get finalState.values "structured_response" = some sr)
    (hcompleted : sr.task_state = TaskState.completed)
    (hout : jsonParse sr.artifact_output = none ∨
      ∃ fields, jsonParse sr.artifact_output = some (Json.obj fields)) :
    ∃ (pre : List Event) (artEv : Event) (k : Nat),
      (execute ctx stream finalState freshTask).1 =
        pre ++ [artEv,
          update_status (updaterOf ctx freshTask) .completed
            (new_agent_text_message (Json.str sr.task_state_message)
              (taskOf ctx freshTask).contextId (taskOf ctx freshTask).id k) true] ∧
      artEv.isArtifact = true ∧
      (∀ e ∈ pre, e.isArtifact = false ∧ e.isFinal = false) ∧
      (execute ctx stream finalState freshTask).2 = none := by
  rw [execute_unfold ctx stream finalState freshTask pm seen1 evs1 n1 hmsg hloop]
  have hne : ¬ sr.task_state ≠ TaskState.completed := by simp [hcompleted]
  obtain ⟨artEv, hart, hisart⟩ :
      ∃ artEv, handle_structured_response_artifact sr (taskOf ctx freshTask) n1 =
          .ok (artEv, n1 + 1) ∧ artEv.isArtifact = true := by
    rcases hout with hout | ⟨fields, hout⟩
    · refine ⟨Event.artifactUpdate
        (new_text_artifact sr.artifact_title sr.artifact_description
          sr.artifact_output n1)
        (taskOf ctx freshTask).id (taskOf ctx freshTask).contextId, ?_, rfl⟩
      simp [handle_structured_response_artifact, hout]
    · refine ⟨Event.artifactUpdate
        (Artifact.mk (uuid4 n1) sr.artifact_title sr.artifact_description
          [Part.data (Json.obj fields)])
        (taskOf ctx freshTask).id (taskOf ctx freshTask).contextId, ?_, rfl⟩
      simp [handle_structured_response_artifact, hout, new_data_artifact, mkDataPart]
  have hfin : handle_structured_response finalState (taskOf ctx freshTask)
      (updaterOf ctx freshTask) n1 =
      ([artEv,
        update_status (updaterOf ctx freshTask) .completed
          (new_agent_text_message (Json.str sr.task_state_message)
            (taskOf ctx freshTask).contextId (taskOf ctx freshTask).id (n1 + 1))
          true],
       n1 + 1 + 1, none) := by
    simp [handle_structured_response, hsr, hne, hart]
  rw [hfin]
  refine ⟨(resolveTask ctx freshTask).2 ++ evs1, artEv, n1 + 1,
    by simp [List.append_assoc], hisart, ?_, rfl⟩
  intro e he
  rcases List.mem_append.mp he with he | he
  · exact resolveTask_events ctx freshTask e he
  · have hw := working_event_shape e
      (stream_loop_start_events _ _ _ _ _ _ _ hloop e he)
    exact ⟨hw.2, hw.1⟩

theorem c3_artifact_before_completed_witness :
    dict_get wStateCompleted.values "structured_response" = some wSRCompleted ∧
    wSRCompleted.task_state = TaskState.completed ∧
    jsonParse wSRCompleted.artifact_output = none ∧
    ∃ (pre : List Event) (artEv : Event) (k : Nat),
      (execute wCtx [] wStateCompleted wFresh).1 =
        pre ++ [artEv,
          update_status (updaterOf wCtx wFresh) .completed
            (new_agent_text_message (Json.str wSRCompleted.task_state_message)
              (taskOf wCtx wFresh).contextId (taskOf wCtx wFresh).id k) true] ∧
      artEv.isArtifact = true ∧
      (∀ e ∈ pre, e.isArtifact = false ∧ e.isFinal = false) ∧
      (execute wCtx [] wStateCompleted wFresh).2 = none :=
  ⟨rfl, rfl, rfl,
   c3_artifact_before_completed wCtx [] wStateCompleted wFresh wMsg wSRCompleted
     [] [] 0 rfl rfl rfl rfl (Or.inl rfl)⟩

/-- C5: when the structured response's outcome state is not
`completed`, the run emits exactly one final status event — carrying
that outcome state and the response's human-readable message — as its
last event, every earlier event is neither an artifact nor final, no
artifact event is emitted at all, and `execute` raises nothing. -/
theorem c5_noncompleted_final_status (ctx : RequestContext)
    (stream : List (List LCMessage)) (finalState : StateSnapshot)
    (freshTask : Task) (pm : ProtoMessage) (sr : StructuredResponse)
    (seen1 : List (Option String)) (evs1 : List Event) (n1 : Nat)
    (hmsg : ctx.message = some pm)
    (hloop : stream_loop (taskOf ctx freshTask) (updaterOf ctx freshTask)
        stream [] [] 0 = (seen1, evs1, n1, none))
    (hsr : dict_get finalState.values "structured_response" = some sr)
    (hnc : sr.task_state ≠ TaskState.completed) :
    ∃ pre : List Event,
      (execute ctx stream finalState freshTask).1 =
        pre ++ [update_status (updaterOf ctx freshTask) sr.task_state
          (new_agent_text_message (Json.str sr.task_state_message)
            (taskOf ctx freshTask).contextId (taskOf ctx freshTask).id n1) true] ∧
      (∀ e ∈ pre, e.isArtifact = false ∧ e.isFinal = false) ∧
      (∀ e ∈ (execute ctx stream finalState freshTask).1, e.isArtifact = false) ∧
      (execute ctx stream finalState freshTask).2 = none := by
  rw [execute_unfold ctx stream finalState freshTask pm seen1 evs1 n1 hmsg hloop]
  have hfin : handle_structured_response finalState (taskOf ctx freshTask)
      (updaterOf ctx freshTask) n1 =
      ([update_status (updaterOf ctx freshTask) sr.task_state
          (new_agent_text_message (Json.str sr.task_state_message)
            (taskOf ctx freshTask).contextId (taskOf ctx freshTask).id n1) true],
       n1 + 1, none) := by
    simp [handle_structured_response, hsr, hnc]
  rw [hfin]
  refine ⟨(resolveTask ctx freshTask).2 ++ evs1, by simp [List.append_assoc], ?_, ?_, rfl⟩
  · intro e he
    rcases List.mem_append.mp he with he | he
    · exact resolveTask_events ctx freshTask e he
    · have hw := working_event_shape e
        (stream_loop_start_events _ _ _ _ _ _ _ hloop e he)
      exact ⟨hw.2, hw.1⟩
  · intro e he
    rcases List.mem_append.mp he with he | he
    · rcases List.mem_append.mp he with he | he
      · exact (resolveTask_events ctx freshTask e he).1
      · exact (working_event_shape e
          (stream_loop_start_events _ _ _ _ _ _ _ hloop e he)).2
    · rw [List.mem_singleton.mp he]; rfl

theorem c5_noncompleted_final_status_witness :
    dict_get wStateInput.values "structured_response" = some wSRInput ∧
    wSRInput.task_state ≠ TaskState.completed ∧
    ∃ pre : List Event,
      (execute wCtx [] wStateInput wFresh).1 =
        pre ++ [update_status (updaterOf wCtx wFresh) wSRInput.task_state
          (new_agent_text_message (Json.str wSRInput.task_state_message)
            (taskOf wCtx wFresh).contextId (taskOf wCtx wFresh).id 0) true] ∧
      (∀ e ∈ pre, e.isArtifact = false ∧ e.isFinal = false) ∧
      (∀ e ∈ (execute wCtx [] wStateInput wFresh).1, e.isArtifact = false) ∧
      (execute wCtx [] wStateInput wFresh).2 = none :=
  ⟨rfl, by decide,
   c5_noncompleted_final_status wCtx [] wStateInput wFresh wMsg wSRInput
     [] [] 0 rfl rfl rfl (by decide)⟩

/-- C6: when the graph's post-stream state lacks a truthy
`structured_response` value, `execute` raises the contract-violation
error after streaming completes: the result carries that error, the
events emitted during streaming (and the task event, if any) remain
visible, and none of them is a final status event. -/
theorem c6_missing_structured_response (ctx : RequestContext)
    (stream : List (List LCMessage)) (finalState : StateSnapshot)
    (freshTask : Task) (pm : ProtoMessage)
    (seen1 : List (Option String)) (evs1 : List Event) (n1 : Nat)
    (hmsg : ctx.message = some pm)
    (hloop : stream_loop (taskOf ctx freshTask) (updaterOf ctx freshTask)
        stream [] [] 0 = (seen1, evs1, n1, none))
    (habs : dict_get finalState.values "structured_response" = none) :
    (execute ctx stream finalState freshTask).2 =
      some ExecError.noStructuredResponse ∧
    (execute ctx stream finalState freshTask).1 =
      (resolveTask ctx freshTask).2 ++ evs1 ∧
    ∀ e ∈ (execute ctx stream finalState freshTask).1, e.isFinal = false := by
  rw [execute_unfold ctx stream finalState freshTask pm seen1 evs1 n1 hmsg hloop]
  have hfin : handle_structured_response finalState (taskOf ctx freshTask)
      (updaterOf ctx freshTask) n1 = ([], n1, some ExecError.noStructuredResponse) := by
    simp [handle_structured_response, habs]
  rw [hfin]
  refine ⟨rfl, by simp, ?_⟩
  intro e he
  simp only [List.append_nil] at he
  rcases List.mem_append.mp he with he | he
  · exact (resolveTask_events ctx freshTask e he).2
  · exact (working_event_shape e
      (stream_loop_start_events _ _ _ _ _ _ _ hloop e he)).1

theorem c6_missing_structured_response_witness :
    dict_get wStateAbsent.values "structured_response" = none ∧
    (execute wCtx [] wStateAbsent wFresh).2 =
      some ExecError.noStructuredResponse ∧
    (execute wCtx [] wStateAbsent wFresh).1 =
      (resolveTask wCtx wFresh).2 ++ [] ∧
    ∀ e ∈ (execute wCtx [] wStateAbsent wFresh).1, e.isFinal = false :=
  ⟨rfl, c6_missing_structured_response wCtx [] wStateAbsent wFresh wMsg
    [] [] 0 rfl rfl rfl⟩

/-- C10: a `structured_response` key that is present but bound to
`None` behaves exactly like an absent key: `execute` raises the same
contract-violation error, the whole result is the same as with the key
entirely absent, and no final status event is emitted. -/
theorem c10_none_value_like_absent (ctx : RequestContext)
    (stream : List (List LCMessage)) (finalState finalState2 : StateSnapshot)
    (freshTask : Task) (pm : ProtoMessage)
    (seen1 : List (Option String)) (evs1 : List Event) (n1 : Nat)
    (hmsg : ctx.message = some pm)
    (hloop : stream_loop (taskOf ctx freshTask) (updaterOf ctx freshTask)
        stream [] [] 0 = (seen1, evs1, n1, none))
    (hpresent : keyLookup finalState.values "structured_response" = some none)
    (habsent : keyLookup finalState2.values "structured_response" = none) :
    (execute ctx stream finalState freshTask).2 =
      some ExecError.noStructuredResponse ∧
    execute ctx stream finalState freshTask =
      execute ctx stream finalState2 freshTask ∧
    ∀ e ∈ (execute ctx stream finalState freshTask).1, e.isFinal = false := by
  have hd1 : dict_get finalState.values "structured_response" = none := by
    simp [dict_get, hpresent]
  have hd2 : dict_get finalState2.values "structured_response" = none := by
    simp [dict_get, habsent]
  rw [execute_unfold ctx stream finalState freshTask pm seen1 evs1 n1 hmsg hloop,
      execute_unfold ctx stream finalState2 freshTask pm seen1 evs1 n1 hmsg hloop]
  have hfin1 : handle_structured_response finalState (taskOf ctx freshTask)
      (updaterOf ctx freshTask) n1 = ([], n1, some ExecError.noStructuredResponse) := by
    simp [handle_structured_response, hd1]
  have hfin2 : handle_structured_response finalState2 (taskOf ctx freshTask)
      (updaterOf ctx freshTask) n1 = ([], n1, some ExecError.noStructuredResponse) := by
    simp [handle_structured_response, hd2]
  rw [hfin1, hfin2]
  refine ⟨rfl, rfl, ?_⟩
  intro e he
  simp only [List.append_nil] at he
  rcases List.mem_append.mp he with he | he
  · exact (resolveTask_events ctx freshTask e he).2
  · exact (working_event_shape e
      (stream_loop_start_events _ _ _ _ _ _ _ hloop e he)).1

theorem c10_none_value_like_absent_witness :
    keyLookup wStateNone.values "structured_response" = some none ∧
    keyLookup wStateAbsent.values "structured_response" = none ∧
    (execute wCtx [] wStateNone wFresh).2 = some ExecError.noStructuredResponse ∧
    execute wCtx [] wStateNone wFresh = execute wCtx [] wStateAbsent wFresh ∧
    ∀ e ∈ (execute wCtx [] wStateNone wFresh).1, e.isFinal = false := by
  have h := c10_none_value_like_absent wCtx [] wStateNone wStateAbsent wFresh wMsg
    [] [] 0 rfl rfl rfl rfl
  exact ⟨rfl, rfl, h.1, h.2.1, h.2.2⟩

end A2ANet
